import Mathlib

/-!
Verification development for the Krita image-core subsystems:

* the transform-mask static cache (StaticCacheStorage) and its
  invalidation/override protocol (libs/image/kis_transform_mask.cpp),
* the transform mask's changeRect / needRect / decorateRect geometry,
* the image signal router (libs/image/kis_image_signal_router.cpp),
* the preset-update proxy's signal compressor/postponement protocol
  (KisPaintOpPresetUpdateProxy.cpp).

The C++ code is shallowly embedded: Qt value types (QRect, QTransform)
become Lean structures over ℤ/ℚ, stateful objects become explicit state
passing, and Qt signal emissions become lists of emitted events.
-/

/-- Computable floor of a rational number (the denominator is positive,
so flooring division of the numerator by the denominator is the floor). -/
def ratFloor (q : ℚ) : ℤ := Int.fdiv q.num q.den

/-- Computable ceiling of a rational number. -/
def ratCeil (q : ℚ) : ℤ := -(ratFloor (-q))

/-- Qt's QRect: a rectangle stored as its left/top/right/bottom integer
edges (x1, y1, x2, y2).  A rect of width w starting at x has
right = x + w - 1.  As a region of the real plane it covers
[left, right+1) × [top, bottom+1). -/
structure QRect where
  left : ℤ
  top : ℤ
  right : ℤ
  bottom : ℤ
deriving DecidableEq, Repr

/-- The default-constructed QRect(): x1 = y1 = 0, x2 = y2 = -1. -/
def QRect.null : QRect := ⟨0, 0, -1, -1⟩

/-- QRect::isEmpty(): true iff right < left or bottom < top. -/
def QRect.isEmpty (r : QRect) : Bool :=
  decide (r.right < r.left) || decide (r.bottom < r.top)

/-- QRect::contains(QPoint): the point lies within the rectangle. -/
def QRect.containsPoint (r : QRect) (p : ℤ × ℤ) : Bool :=
  decide (r.left ≤ p.1) && decide (p.1 ≤ r.right) &&
  decide (r.top ≤ p.2) && decide (p.2 ≤ r.bottom)

def QRect.width (r : QRect) : ℤ := r.right - r.left + 1

def QRect.height (r : QRect) : ℤ := r.bottom - r.top + 1

/-- QRect::adjusted(dx1, dy1, dx2, dy2). -/
def QRect.adjusted (r : QRect) (dx1 dy1 dx2 dy2 : ℤ) : QRect :=
  ⟨r.left + dx1, r.top + dy1, r.right + dx2, r.bottom + dy2⟩

def QRect.topLeft (r : QRect) : ℤ × ℤ := (r.left, r.top)

/-- QRect::operator& (intersection): edge-wise max/min; a pair of
disjoint rects yields a rect with right < left or bottom < top, which
isEmpty reports as empty. -/
def QRect.intersected (r s : QRect) : QRect :=
  ⟨max r.left s.left, max r.top s.top, min r.right s.right, min r.bottom s.bottom⟩

/-- QRect::operator|= with a single point: grow the rect to include it. -/
def QRect.unitePoint (r : QRect) (p : ℤ × ℤ) : QRect :=
  ⟨min r.left p.1, min r.top p.2, max r.right p.1, max r.bottom p.2⟩

/-- kisGrowRect(rc, border): rc.adjusted(-border, -border, border, border). -/
def kisGrowRect (r : QRect) (border : ℤ) : QRect :=
  r.adjusted (-border) (-border) border border

/-- Modelled from the spec: KisAlgebra2D::blowRect (its source,
kis_algebra_2d.cpp, is not among the provided files) grows a rect on
every side by a configurable fraction of the rect's own size ("the
parent's nominal bounds grown by a configurable fractional margin"). -/
def blowRect (bounds : QRect) (coeff : ℚ) : QRect :=
  let dw : ℤ := ratFloor (coeff * (bounds.width : ℚ))
  let dh : ℤ := ratFloor (coeff * (bounds.height : ℚ))
  bounds.adjusted (-dw) (-dh) dw dh

/-- Qt's QTransform restricted to the affine plane part, with rational
coefficients standing in for qreal.  A point (x, y) is mapped to
(m11*x + m21*y + dx, m12*x + m22*y + dy). -/
structure QTransform where
  m11 : ℚ
  m12 : ℚ
  m21 : ℚ
  m22 : ℚ
  dx : ℚ
  dy : ℚ
deriving DecidableEq, Repr

def QTransform.det (t : QTransform) : ℚ := t.m11 * t.m22 - t.m12 * t.m21

def QTransform.mapQ (t : QTransform) (p : ℚ × ℚ) : ℚ × ℚ :=
  (t.m11 * p.1 + t.m21 * p.2 + t.dx, t.m12 * p.1 + t.m22 * p.2 + t.dy)

/-- QTransform::inverted() for an affine transform, by the adjugate
formula (meaningful when det ≠ 0). -/
def QTransform.inverted (t : QTransform) : QTransform :=
  { m11 := t.m22 / t.det
    m12 := -t.m12 / t.det
    m21 := -t.m21 / t.det
    m22 := t.m11 / t.det
    dx := (t.m21 * t.dy - t.m22 * t.dx) / t.det
    dy := (t.m12 * t.dx - t.m11 * t.dy) / t.det }

/-- The axis-aligned integer bounding rect of the image of a QRect's real
region under an affine transform: map the four corners, take the bounding
box, and align it outward to integer pixel edges (QRectF::toAlignedRect).
This is the forward rect mapping of the transform. -/
def QTransform.mapRectAligned (t : QTransform) (r : QRect) : QRect :=
  let c00 := t.mapQ ((r.left : ℚ), (r.top : ℚ))
  let c10 := t.mapQ ((r.right : ℚ) + 1, (r.top : ℚ))
  let c01 := t.mapQ ((r.left : ℚ), (r.bottom : ℚ) + 1)
  let c11 := t.mapQ ((r.right : ℚ) + 1, (r.bottom : ℚ) + 1)
  let xmin := min (min c00.1 c10.1) (min c01.1 c11.1)
  let xmax := max (max c00.1 c10.1) (max c01.1 c11.1)
  let ymin := min (min c00.2 c10.2) (min c01.2 c11.2)
  let ymax := max (max c00.2 c10.2) (max c01.2 c11.2)
  ⟨ratFloor xmin, ratFloor ymin, ratCeil xmax - 1, ratCeil ymax - 1⟩

/-- Modelled from the spec: KisSafeTransform (kis_safe_transform.cpp is not
among the provided files).  Per the spec it forward-maps rects "via the
transform restricted to a safety-clamped bounding rectangle (to avoid
unbounded or degenerate rectangles from near-singular matrices — clamp
using the parent's nominal bounds grown by a configurable fractional
margin)", and back-maps via the inverse transform, restricted the same
way.  The restriction is modelled by intersecting the mapped rect with
the limiting (clamp) rect before mapping, on both the forward and the
backward direction. -/
structure KisSafeTransform where
  transform : QTransform
  limitingRect : QRect
  interestRect : QRect

def KisSafeTransform.mapRectForward (st : KisSafeTransform) (r : QRect) : QRect :=
  st.transform.mapRectAligned (r.intersected st.limitingRect)

def KisSafeTransform.mapRectBackward (st : KisSafeTransform) (r : QRect) : QRect :=
  st.transform.inverted.mapRectAligned (r.intersected st.limitingRect)

/-! ## Paint devices (external collaborator, modelled from the spec)

Modelled from the spec: KisPaintDevice / KisPainter (pixel storage and
compositing, not among the provided files; the spec lists clear(rect),
extent(), copyArea(dst, rect) as opaque bitmap operations the core
consumes).  A device is a finite list of colored pixels plus its color
space and default-bounds identifiers. -/

/-- A single pixel: integer position and a color value. -/
abbrev Pixel := (ℤ × ℤ) × ℕ

structure KisPaintDevice where
  colorSpace : ℕ
  defaultBounds : ℕ
  pixels : List Pixel
deriving DecidableEq, Repr

/-- KisPaintDevice::extent(): a rectangle covering all the device's
pixels (modelled as the exact bounding box; the real device returns a
tile-aligned superset, and every claim below only relies on the extent
covering the pixels). -/
def KisPaintDevice.extent (d : KisPaintDevice) : QRect :=
  match d.pixels with
  | [] => QRect.null
  | p :: ps => ps.foldl (fun r q => r.unitePoint q.1) ⟨p.1.1, p.1.2, p.1.1, p.1.2⟩

/-- KisPaintDevice::clear(): drop all pixel content. -/
def KisPaintDevice.clear (d : KisPaintDevice) : KisPaintDevice :=
  { d with pixels := [] }

/-- KisPainter::copyAreaOptimized(rc.topLeft(), src, dst, rc): replace
dst's content inside rc by src's content inside rc (the call sites in
the embedded code always copy a rect to the same position, so no offset
arithmetic is modelled). -/
def copyAreaOptimized (_topLeft : ℤ × ℤ) (src dst : KisPaintDevice)
    (rc : QRect) : KisPaintDevice :=
  { dst with pixels :=
      dst.pixels.filter (fun p => !(rc.containsPoint p.1)) ++
      src.pixels.filter (fun p => rc.containsPoint p.1) }

/-! ## StaticCacheStorage (kis_transform_mask.cpp, anonymous namespace)

The lock-protected cached bitmap of a transform mask.  The QReadWriteLock
only guards the field accesses and is dropped in this sequential
embedding; the KIS_SAFE_ASSERT_RECOVER_NOOP checks do not alter control
flow and are dropped too, while KIS_SAFE_ASSERT_RECOVER_RETURN aborts
the call and is modelled as returning the state unchanged.

The storage is generic in the params type P; the virtual
compareTransform method of the stored params is passed explicitly as a
comparison function where needed. -/

structure StaticCacheStorage (P : Type) where
  staticCacheIsOverridden : Bool
  staticCacheValid : Bool
  staticCacheDevice : Option KisPaintDevice
  paramsForStaticImage : Option P
deriving DecidableEq, Repr

/-- The default-initialised storage (all fields false/null). -/
def StaticCacheStorage.init (P : Type) : StaticCacheStorage P :=
  ⟨false, false, none, none⟩

/-- StaticCacheStorage::isCacheValid(currentParams):
return staticCacheValid && (!paramsForStaticImage ||
paramsForStaticImage->compareTransform(currentParams)). -/
def StaticCacheStorage.isCacheValid {P : Type} (cmp : P → P → Bool)
    (s : StaticCacheStorage P) (currentParams : P) : Bool :=
  s.staticCacheValid &&
    (match s.paramsForStaticImage with
     | none => true
     | some stored => cmp stored currentParams)

/-- StaticCacheStorage::isCacheOverridden(). -/
def StaticCacheStorage.isCacheOverridden {P : Type}
    (s : StaticCacheStorage P) : Bool :=
  s.staticCacheIsOverridden

/-- StaticCacheStorage::lazyAllocateStaticCache(cs, defaultBounds):
(re)allocate the backing device only if absent or of a different color
space. -/
def StaticCacheStorage.lazyAllocateStaticCache {P : Type}
    (s : StaticCacheStorage P) (cs : ℕ) (defaultBounds : ℕ) :
    StaticCacheStorage P :=
  match s.staticCacheDevice with
  | none =>
      { s with staticCacheDevice := some ⟨cs, defaultBounds, []⟩ }
  | some d =>
      if d.colorSpace ≠ cs then
        { s with staticCacheDevice := some ⟨cs, defaultBounds, []⟩ }
      else s

/-- StaticCacheStorage::setDeviceCacheValid(currentParams): record the
params and mark the cache valid (the assert that the cache is not
overridden is a recover-noop). -/
def StaticCacheStorage.setDeviceCacheValid {P : Type}
    (s : StaticCacheStorage P) (currentParams : P) : StaticCacheStorage P :=
  { s with paramsForStaticImage := some currentParams, staticCacheValid := true }

/-- StaticCacheStorage::overrideStaticCacheDevice(device): when no
backing device has been allocated the KIS_SAFE_ASSERT_RECOVER_RETURN
aborts the call; otherwise the backing device is cleared, the supplied
device's extent is copied over (if non-null), and the flags are set to
bool(device) with the stored params dropped. -/
def StaticCacheStorage.overrideStaticCacheDevice {P : Type}
    (s : StaticCacheStorage P) (device : Option KisPaintDevice) :
    StaticCacheStorage P :=
  match s.staticCacheDevice with
  | none => s
  | some cacheDev =>
      let cleared := cacheDev.clear
      let newDev :=
        match device with
        | some d => copyAreaOptimized d.extent.topLeft d cleared d.extent
        | none => cleared
      { s with
          staticCacheDevice := some newDev
          paramsForStaticImage := none
          staticCacheValid := device.isSome
          staticCacheIsOverridden := device.isSome }

/-- StaticCacheStorage::invalidateDeviceCache(): clear the valid flag
and the stored params (the assert that the cache is not overridden is a
recover-noop: the overridden flag is left untouched). -/
def StaticCacheStorage.invalidateDeviceCache {P : Type}
    (s : StaticCacheStorage P) : StaticCacheStorage P :=
  { s with staticCacheValid := false, paramsForStaticImage := none }

/-- The spec's structural invariant on the cache: overridden ⇒ valid. -/
def CacheInv {P : Type} (s : StaticCacheStorage P) : Prop :=
  s.staticCacheIsOverridden = true → s.staticCacheValid = true

/-! ## The transform mask (KisTransformMask, kis_transform_mask.cpp)

The animated params holder is collapsed to the params value it bakes
(bakeIntoParams); the params interface's virtual methods become function
fields.  The mask's Qt plumbing (signals, testing interface, progress
indicator) is dropped; the thread-safe update compressor is modelled by
whether its timer has been started. -/

/-- A bitmap-transform parameter object (KisTransformMaskParamsInterface):
the virtual methods the embedded code calls, as data. -/
structure KisTransformMaskParams where
  isHidden : Bool
  isAffine : Bool
  finalAffineTransform : QTransform
  nonAffineChangeRect : QRect → QRect
  nonAffineNeedRect : QRect → QRect → QRect
  transformDevice : KisPaintDevice → KisPaintDevice → KisPaintDevice

/-- PositionToFilthy values a mask's decorateRect may be called with. -/
inductive PositionToFilthy
  | N_ABOVE_FILTHY
  | N_FILTHY_PROJECTION
  | N_FILTHY
  | N_BELOW_FILTHY
deriving DecidableEq, Repr

/-- The image as seen from the mask and the signal router: the global
lock flag and the value-payloads re-read when re-emitting signals. -/
structure KisImage where
  locked : Bool
  profile : ℕ
  colorSpace : ℕ
  xRes : ℚ
  yRes : ℚ
deriving DecidableEq, Repr

/-- The parent layer of a transform mask: its image back-reference plus
the geometry the mask's rect calculations query from it
(original()->defaultBounds()->bounds() and original()->extent()). -/
structure KisLayer where
  image : Option KisImage
  bounds : QRect
  extent : QRect

/-- KisRecalculateTransformMaskJob as submitted by the mask: it carries
the extra update rect drained from the accumulator. -/
structure KisRecalculateTransformMaskJob where
  extraUpdateRect : QRect
deriving DecidableEq, Repr

/-- The mutable state of a KisTransformMask (KisTransformMask::Private)
together with the graph context it reads (parent layer). -/
structure KisTransformMask where
  params : KisTransformMaskParams
  compareParams : KisTransformMaskParams → KisTransformMaskParams → Bool
  staticCache : StaticCacheStorage KisTransformMaskParams
  recalculatingStaticImage : Bool
  forcedStaticUpdateExtraUpdateRect : QRect
  compressorActive : Bool
  parentLayer : Option KisLayer
  externalFrameActive : Bool
  offBoundsReadArea : ℚ
  runPartialDst : KisPaintDevice → KisPaintDevice → QRect → KisPaintDevice

/-- The safety-clamp rect both rect calculations build their
KisSafeTransform with: the parent's nominal bounds (with the warning
fallback QRect(0,0,777,777) when the mask has no parent) blown by the
configurable off-bounds-read margin. -/
def KisTransformMask.safeLimitingRect (m : KisTransformMask) : QRect :=
  let bounds := match m.parentLayer with
    | some p => p.bounds
    | none => ⟨0, 0, 776, 776⟩
  blowRect bounds m.offBoundsReadArea

/-- KisTransformMask::changeRect(rect, pos): empty rects short-circuit;
affine params are forward-mapped through a KisSafeTransform built from
the safety-clamp rect (with the warning fallback QRect(0,0,888,888)
interest rect when the mask has no parent); non-affine params delegate
to the params object. -/
def KisTransformMask.changeRect (m : KisTransformMask) (rect : QRect)
    (_pos : PositionToFilthy) : QRect :=
  if rect.isEmpty then rect
  else
    let params := m.params
    if params.isAffine then
      let interestRect := match m.parentLayer with
        | some p => p.extent
        | none => ⟨0, 0, 887, 887⟩
      let transform : KisSafeTransform :=
        ⟨params.finalAffineTransform, m.safeLimitingRect, interestRect⟩
      transform.mapRectForward rect
    else
      params.nonAffineChangeRect rect

/-- KisTransformMask::needRect(rect, pos): empty rects short-circuit;
affine params are backward-mapped and then grown by 1px for bilinear
sampling support; non-affine params delegate to the params object. -/
def KisTransformMask.needRect (m : KisTransformMask) (rect : QRect)
    (_pos : PositionToFilthy) : QRect :=
  if rect.isEmpty then rect
  else
    let params := m.params
    let interestRect := match m.parentLayer with
      | some p => p.extent
      | none => ⟨0, 0, 887, 887⟩
    if params.isAffine then
      let transform : KisSafeTransform :=
        ⟨params.finalAffineTransform, m.safeLimitingRect, interestRect⟩
      kisGrowRect (transform.mapRectBackward rect) 1
    else
      params.nonAffineNeedRect rect interestRect

/-- KisTransformMask::startAsyncRegenerationJob(): no-op without a
parent layer or image; while the image is locked, restart the update
compressor instead of submitting; otherwise drain the accumulated extra
update rect and submit a recalculation job.  Returns the new mask state
and the submitted jobs. -/
def KisTransformMask.startAsyncRegenerationJob (m : KisTransformMask) :
    KisTransformMask × List KisRecalculateTransformMaskJob :=
  match m.parentLayer with
  | none => (m, [])
  | some parentLayer =>
      match parentLayer.image with
      | none => (m, [])
      | some image =>
          if image.locked then
            ({ m with compressorActive := true }, [])
          else
            let extraUpdateRect := m.forcedStaticUpdateExtraUpdateRect
            ({ m with forcedStaticUpdateExtraUpdateRect := QRect.null },
             [⟨extraUpdateRect⟩])

/-- Render pass flags (KisRenderPassFlags). -/
structure KisRenderPassFlags where
  noTransformMaskUpdates : Bool
deriving DecidableEq, Repr

/-- KisTransformMask::decorateRect(src, dst, rc, maskPos, flags): the
full branch structure of the source, returning the new mask state, the
new dst device and the returned rect.  Pixel work is delegated to the
params' transformDevice, the perspective worker's runPartialDst and
copyAreaOptimized, exactly as in the source. -/
def KisTransformMask.decorateRect (m : KisTransformMask)
    (src dst : KisPaintDevice) (rc : QRect) (maskPos : PositionToFilthy)
    (flags : KisRenderPassFlags) :
    KisTransformMask × KisPaintDevice × QRect :=
  let params := m.params
  if params.isHidden then (m, dst, rc)
  else if m.externalFrameActive then
    -- no preview for non-affine transforms currently
    if params.isAffine then (m, m.runPartialDst src dst rc, rc)
    else (m, dst, rc)
  else
    let triggerAsyncUpdate :=
      !m.staticCache.isCacheOverridden &&
      !m.recalculatingStaticImage &&
      (decide (maskPos = PositionToFilthy.N_FILTHY) ||
       decide (maskPos = PositionToFilthy.N_ABOVE_FILTHY) ||
       !m.staticCache.isCacheValid m.compareParams params) &&
      !flags.noTransformMaskUpdates
    let m1 :=
      if triggerAsyncUpdate then
        { m with staticCache := m.staticCache.invalidateDeviceCache,
                 compressorActive := true }
      else m
    if m1.recalculatingStaticImage then
      match m1.staticCache.staticCacheDevice with
      | some cacheDev =>
          let newCacheDev := params.transformDevice src cacheDev.clear
          let updatedRect := newCacheDev.extent
          let dst1 := copyAreaOptimized updatedRect.topLeft newCacheDev dst updatedRect
          ({ m1 with staticCache :=
               { m1.staticCache.setDeviceCacheValid params with
                 staticCacheDevice := some newCacheDev } },
           dst1, rc)
      | none =>
          -- the source dereferences the cache device unconditionally here;
          -- recalculateStaticImage always allocates it first
          ({ m1 with staticCache := m1.staticCache.setDeviceCacheValid params },
           dst, rc)
    else if params.isAffine && !m1.staticCache.isCacheValid m1.compareParams params then
      (m1, m1.runPartialDst src dst rc, rc)
    else if m1.staticCache.isCacheValid m1.compareParams params then
      match m1.staticCache.staticCacheDevice with
      | some cacheDev => (m1, copyAreaOptimized rc.topLeft cacheDev dst rc, rc)
      | none => (m1, dst, rc)
    else
      (m1, dst, rc)

/-! ## KisImageSignalRouter (kis_image_signal_router.cpp)

emitNotification either calls slotNotification directly (for the two
ordering-critical kinds) or emits sigNotification, whose connection
queues the call; the two outcomes are modelled as a sum.  slotNotification
resolves the weak image reference, applies invalidateAllFrames side
effects and re-emits the image signals; the re-emissions are modelled as
a list of emitted signals. -/

/-- Node handles are opaque identifiers. -/
abbrev NodeId := ℕ

/-- The discriminating enum of KisImageSignalType. -/
inductive KisImageSignalId
  | LayersChangedSignal
  | ModifiedWithoutUndoSignal
  | SizeChangedSignal
  | ProfileChangedSignal
  | ColorSpaceChangedSignal
  | ResolutionChangedSignal
  | NodeReselectionRequestSignal
deriving DecidableEq, Repr

/-- KisImageSignalType: the discriminator plus the per-kind payloads
(the unused payloads keep their default values at each call site, as in
the C++ tagged union). -/
structure KisImageSignalType where
  id : KisImageSignalId
  oldStillPoint : ℚ × ℚ := (0, 0)
  newStillPoint : ℚ × ℚ := (0, 0)
  newActiveNode : Option NodeId := none
  newSelectedNodes : List NodeId := []
deriving DecidableEq, Repr

/-- The signals the router re-emits towards its subscribers. -/
inductive EmittedSignal
  | sigLayersChangedAsync
  | sigImageModifiedWithoutUndo
  | sigSizeChanged (oldStillPoint newStillPoint : ℚ × ℚ)
  | sigProfileChanged (profile : ℕ)
  | sigColorSpaceChanged (colorSpace : ℕ)
  | sigResolutionChanged (xRes yRes : ℚ)
  | sigRequestNodeReselection (newActiveNode : Option NodeId)
      (newSelectedNodes : List NodeId)
deriving DecidableEq, Repr

/-- What one slotNotification call did: how often it called
image->invalidateAllFrames(), and which signals it emitted, in order. -/
structure SlotNotificationResult where
  invalidateAllFramesCalls : ℕ
  emitted : List EmittedSignal
deriving DecidableEq, Repr

/-- KisImageSignalRouter::slotNotification(type): resolve the weak image
reference (return without effect if the image died), then dispatch on
the signal id. -/
def slotNotification (imageRef : Option KisImage)
    (type : KisImageSignalType) : SlotNotificationResult :=
  match imageRef with
  | none => ⟨0, []⟩
  | some image =>
      match type.id with
      | KisImageSignalId.LayersChangedSignal =>
          ⟨1, [EmittedSignal.sigLayersChangedAsync]⟩
      | KisImageSignalId.ModifiedWithoutUndoSignal =>
          ⟨0, [EmittedSignal.sigImageModifiedWithoutUndo]⟩
      | KisImageSignalId.SizeChangedSignal =>
          ⟨1, [EmittedSignal.sigSizeChanged type.oldStillPoint type.newStillPoint]⟩
      | KisImageSignalId.ProfileChangedSignal =>
          ⟨1, [EmittedSignal.sigProfileChanged image.profile]⟩
      | KisImageSignalId.ColorSpaceChangedSignal =>
          ⟨1, [EmittedSignal.sigColorSpaceChanged image.colorSpace]⟩
      | KisImageSignalId.ResolutionChangedSignal =>
          ⟨1, [EmittedSignal.sigResolutionChanged image.xRes image.yRes]⟩
      | KisImageSignalId.NodeReselectionRequestSignal =>
          if type.newActiveNode.isSome || !type.newSelectedNodes.isEmpty then
            ⟨0, [EmittedSignal.sigRequestNodeReselection type.newActiveNode
                   type.newSelectedNodes]⟩
          else
            ⟨0, []⟩

/-- The two dispatch paths of emitNotification: a synchronous direct
call to slotNotification, or the queued sigNotification emission. -/
inductive NotificationDispatch
  | direct (result : SlotNotificationResult)
  | queued (type : KisImageSignalType)

/-- KisImageSignalRouter::emitNotification(type): LayersChangedSignal
and NodeReselectionRequestSignal are delivered by a direct call to
slotNotification; everything else goes through the queued
sigNotification connection. -/
def emitNotification (imageRef : Option KisImage)
    (type : KisImageSignalType) : NotificationDispatch :=
  if type.id = KisImageSignalId.LayersChangedSignal ∨
     type.id = KisImageSignalId.NodeReselectionRequestSignal then
    NotificationDispatch.direct (slotNotification imageRef type)
  else
    NotificationDispatch.queued type

/-! ## KisPaintOpPresetUpdateProxy (KisPaintOpPresetUpdateProxy.cpp)

The updates compressor (KisSignalCompressor, 100ms, FIRST_ACTIVE) is
modelled by whether its timer is running; the proxy's signals become a
list of emitted events. -/

/-- The three settings-changed signals of the proxy. -/
inductive ProxyEvent
  | earlyWarning
  | uncompressed
  | settingsChanged
deriving DecidableEq, Repr

/-- KisPaintOpPresetUpdateProxy::Private. -/
structure KisPaintOpPresetUpdateProxy where
  updatesBlocked : ℤ
  numUpdatesWhileBlocked : ℤ
  compressorActive : Bool
deriving DecidableEq, Repr

/-- The freshly constructed proxy. -/
def KisPaintOpPresetUpdateProxy.init : KisPaintOpPresetUpdateProxy :=
  ⟨0, 0, false⟩

/-- KisPaintOpPresetUpdateProxy::notifySettingsChanged(): while blocked,
count the suppressed update; otherwise fire the early-warning and
uncompressed signals and (re)start the compressor. -/
def KisPaintOpPresetUpdateProxy.notifySettingsChanged
    (s : KisPaintOpPresetUpdateProxy) :
    KisPaintOpPresetUpdateProxy × List ProxyEvent :=
  if s.updatesBlocked ≠ 0 then
    ({ s with numUpdatesWhileBlocked := s.numUpdatesWhileBlocked + 1 }, [])
  else
    ({ s with compressorActive := true },
     [ProxyEvent.earlyWarning, ProxyEvent.uncompressed])

/-- KisPaintOpPresetUpdateProxy::postponeSettingsChanges(). -/
def KisPaintOpPresetUpdateProxy.postponeSettingsChanges
    (s : KisPaintOpPresetUpdateProxy) : KisPaintOpPresetUpdateProxy :=
  { s with updatesBlocked := s.updatesBlocked + 1 }

/-- KisPaintOpPresetUpdateProxy::unpostponeSettingsChanges(): decrement
the nesting counter; on reaching zero with suppressed updates pending,
clear the counter and fire early-warning, uncompressed and the terminal
coalesced signal synchronously. -/
def KisPaintOpPresetUpdateProxy.unpostponeSettingsChanges
    (s : KisPaintOpPresetUpdateProxy) :
    KisPaintOpPresetUpdateProxy × List ProxyEvent :=
  let s1 := { s with updatesBlocked := s.updatesBlocked - 1 }
  if s1.updatesBlocked = 0 ∧ s1.numUpdatesWhileBlocked ≠ 0 then
    ({ s1 with numUpdatesWhileBlocked := 0 },
     [ProxyEvent.earlyWarning, ProxyEvent.uncompressed,
      ProxyEvent.settingsChanged])
  else
    (s1, [])

/-- KisPaintOpPresetUpdateProxy::slotDeliverSettingsChanged(): the
compressor timeout handler; while blocked it counts the update,
otherwise it fires the terminal coalesced signal. -/
def KisPaintOpPresetUpdateProxy.slotDeliverSettingsChanged
    (s : KisPaintOpPresetUpdateProxy) :
    KisPaintOpPresetUpdateProxy × List ProxyEvent :=
  if s.updatesBlocked ≠ 0 then
    ({ s with numUpdatesWhileBlocked := s.numUpdatesWhileBlocked + 1 }, [])
  else
    (s, [ProxyEvent.settingsChanged])

/-- Run n notifySettingsChanged calls, accumulating the emitted events. -/
def notifyTimes : ℕ → KisPaintOpPresetUpdateProxy →
    KisPaintOpPresetUpdateProxy × List ProxyEvent
  | 0, s => (s, [])
  | n + 1, s =>
      let (s1, evs1) := s.notifySettingsChanged
      let (s2, evs2) := notifyTimes n s1
      (s2, evs1 ++ evs2)

/-- The claim's scenario: from a fresh proxy, postpone once, call
notifySettingsChanged n times, then unpostpone once; collect all events
emitted along the way. -/
def postponeScenarioEvents (n : ℕ) : List ProxyEvent :=
  let s0 := KisPaintOpPresetUpdateProxy.init.postponeSettingsChanges
  let (s1, evs1) := notifyTimes n s0
  let (_, evs2) := s1.unpostponeSettingsChanges
  evs1 ++ evs2

/-! ## Concrete sample values used by witnesses and counterexamples -/

/-- The identity QTransform. -/
def idTransform : QTransform := ⟨1, 0, 0, 1, 0, 0⟩

/-- Identity affine transform-mask params. -/
def idParams : KisTransformMaskParams :=
  { isHidden := false
    isAffine := true
    finalAffineTransform := idTransform
    nonAffineChangeRect := fun r => r
    nonAffineNeedRect := fun r _ => r
    transformDevice := fun _ d => d }

def sampleImage : KisImage := ⟨false, 0, 0, 1, 1⟩

def lockedImage : KisImage := ⟨true, 0, 0, 1, 1⟩

def sampleLayer : KisLayer :=
  ⟨some sampleImage, ⟨0, 0, 99, 99⟩, ⟨0, 0, 99, 99⟩⟩

def lockedLayer : KisLayer :=
  ⟨some lockedImage, ⟨0, 0, 99, 99⟩, ⟨0, 0, 99, 99⟩⟩

def sampleMask : KisTransformMask :=
  { params := idParams
    compareParams := fun _ _ => true
    staticCache := StaticCacheStorage.init KisTransformMaskParams
    recalculatingStaticImage := false
    forcedStaticUpdateExtraUpdateRect := QRect.null
    compressorActive := false
    parentLayer := some sampleLayer
    externalFrameActive := false
    offBoundsReadArea := 1/2
    runPartialDst := fun _ d _ => d }

def lockedMask : KisTransformMask :=
  { sampleMask with parentLayer := some lockedLayer }

def sampleRect : QRect := ⟨0, 0, 0, 0⟩

/-- Affine params whose matrix is the zero matrix (a degenerate but
perspective-free, hence affine, transform). -/
def zeroDetParams : KisTransformMaskParams :=
  { idParams with finalAffineTransform := ⟨0, 0, 0, 0, 0, 0⟩ }

/-- An affine transform mask with a degenerate (det = 0) transform. -/
def zeroDetMask : KisTransformMask :=
  { sampleMask with params := zeroDetParams }

/-- The identity-transform mask with a zero off-bounds margin, so its
safety-clamp rect is exactly the parent bounds QRect(0,0,100,100). -/
def zeroMarginMask : KisTransformMask :=
  { sampleMask with offBoundsReadArea := 0 }

/-- Affine params stretching x by 10 around x = 50
(x ↦ 10x − 500, y ↦ y); det = 10. -/
def stretchParams : KisTransformMaskParams :=
  { idParams with finalAffineTransform := ⟨10, 0, 0, 1, -500, 0⟩ }

/-- A mask with the x-stretching transform and a zero off-bounds
margin. -/
def stretchMask : KisTransformMask :=
  { sampleMask with params := stretchParams, offBoundsReadArea := 0 }

/-- A single-pixel rect far outside the sample parent's blown bounds. -/
def farRect : QRect := ⟨200, 200, 200, 200⟩

/-- A rect straddling the left clamp edge under the stretching
transform, whose rightmost pixel maps far beyond the clamp. -/
def straddleRect : QRect := ⟨40, 50, 61, 50⟩

/-- A one-pixel paint device. -/
def onePixelDevice : KisPaintDevice := ⟨0, 0, [((0, 0), 1)]⟩

/-- The empty device a lazy allocation creates. -/
def emptyDevice : KisPaintDevice := ⟨0, 0, []⟩

/-- An ℕ-params storage whose backing device has been allocated. -/
def allocatedStorage : StaticCacheStorage ℕ :=
  (StaticCacheStorage.init ℕ).lazyAllocateStaticCache 0 0

/-- An ℕ-params storage put into the overridden state by the regular
operations: allocate, then override with a device. -/
def overriddenStorage : StaticCacheStorage ℕ :=
  allocatedStorage.overrideStaticCacheDevice (some onePixelDevice)

/-! ## Claims -/

theorem ratFloor_eq_floor (q : ℚ) : ratFloor q = ⌊q⌋ := by
  rw [Rat.floor_def]
  exact Int.fdiv_eq_ediv _ (by exact_mod_cast q.den_pos.le)

theorem ratFloor_le (q : ℚ) : (ratFloor q : ℚ) ≤ q := by
  rw [ratFloor_eq_floor]; exact Int.floor_le q

theorem le_ratCeil (q : ℚ) : q ≤ (ratCeil q : ℚ) := by
  unfold ratCeil
  have h := ratFloor_le (-q)
  push_cast
  linarith

theorem ratFloor_int_le {z : ℤ} {q : ℚ} (h : q ≤ (z : ℚ)) : ratFloor q ≤ z := by
  rw [ratFloor_eq_floor]
  have := Int.floor_mono h
  rwa [Int.floor_intCast] at this

theorem int_lt_ratCeil {z : ℤ} {q : ℚ} (h : (z : ℚ) < q) : z < ratCeil q := by
  unfold ratCeil
  rw [ratFloor_eq_floor]
  have h1 : (⌊-q⌋ : ℚ) ≤ -q := Int.floor_le _
  have h2 : ((⌊-q⌋ : ℤ) : ℚ) < -(z : ℚ) := by linarith
  have h3 : (⌊-q⌋ : ℤ) < -z := by exact_mod_cast h2
  omega

theorem int_le_ratCeil {z : ℤ} {q : ℚ} (h : (z : ℚ) ≤ q) : z ≤ ratCeil q := by
  have h1 : q ≤ (ratCeil q : ℚ) := le_ratCeil q
  have : (z : ℚ) ≤ (ratCeil q : ℚ) := le_trans h h1
  exact_mod_cast this

theorem QTransform.inverted_mapQ (t : QTransform) (h : t.det ≠ 0) (p : ℚ × ℚ) :
    t.inverted.mapQ (t.mapQ p) = p := by
  rcases p with ⟨x, y⟩
  unfold QTransform.mapQ QTransform.inverted
  have hd : t.m11 * t.m22 - t.m12 * t.m21 ≠ 0 := h
  simp only [Prod.mk.injEq]
  constructor
  · field_simp [QTransform.det]
    ring
  · field_simp [QTransform.det]
    ring

theorem QRect.containsPoint_unitePoint_of_containsPoint (r : QRect) (q p : ℤ × ℤ)
    (h : r.containsPoint p = true) : (r.unitePoint q).containsPoint p = true := by
  simp only [QRect.containsPoint, QRect.unitePoint, Bool.and_eq_true,
    decide_eq_true_eq] at h ⊢
  omega

theorem QRect.containsPoint_unitePoint_self (r : QRect) (q : ℤ × ℤ) :
    (r.unitePoint q).containsPoint q = true := by
  simp only [QRect.containsPoint, QRect.unitePoint, Bool.and_eq_true,
    decide_eq_true_eq]
  omega

theorem foldl_unitePoint_containsPoint (ps : List Pixel) (r : QRect) (p : Pixel)
    (h : r.containsPoint p.1 = true ∨ p ∈ ps) :
    (ps.foldl (fun r q => r.unitePoint q.1) r).containsPoint p.1 = true := by
  induction ps generalizing r with
  | nil =>
      rcases h with h | h
      · exact h
      · cases h
  | cons a as ih =>
      simp only [List.foldl_cons]
      apply ih
      rcases h with h | h
      · exact Or.inl (QRect.containsPoint_unitePoint_of_containsPoint r a.1 p.1 h)
      · rcases List.mem_cons.mp h with h' | h'
        · subst h'
          exact Or.inl (QRect.containsPoint_unitePoint_self r p.1)
        · exact Or.inr h'

/-- Every pixel of a device lies inside its extent. -/
theorem KisPaintDevice.mem_extent (d : KisPaintDevice) (p : Pixel)
    (hp : p ∈ d.pixels) : d.extent.containsPoint p.1 = true := by
  unfold KisPaintDevice.extent
  rcases hd : d.pixels with _ | ⟨q, qs⟩
  · rw [hd] at hp; cases hp
  · rw [hd] at hp
    rcases List.mem_cons.mp hp with h | h
    · subst h
      apply foldl_unitePoint_containsPoint
      refine Or.inl ?_
      simp only [QRect.containsPoint, Bool.and_eq_true, decide_eq_true_eq]
      omega
    · exact foldl_unitePoint_containsPoint qs _ p (Or.inr h)

/-- C1: for every params value P and every cache state,
StaticCacheStorage::isCacheValid(P) returns true if and only if the
valid flag is set and the stored validFor params is null or compares
equal-by-value (via compareTransform) to P. -/
theorem C1_isCacheValid_iff {P : Type} (cmp : P → P → Bool)
    (s : StaticCacheStorage P) (params : P) :
    s.isCacheValid cmp params = true ↔
      (s.staticCacheValid = true ∧
        (s.paramsForStaticImage = none ∨
         ∃ stored, s.paramsForStaticImage = some stored ∧
           cmp stored params = true)) := by
  rcases s with ⟨o, v, d, pp⟩
  cases pp <;> cases v <;>
    simp [StaticCacheStorage.isCacheValid]

/-- C7: emitNotification dispatches a notification through the
synchronous in-order path (a direct call to slotNotification) exactly
when its kind is LayersChanged or NodeReselectionRequest; every other
kind goes through the queued path. -/
theorem C7_emitNotification_dispatch (imageRef : Option KisImage)
    (type : KisImageSignalType) :
    (emitNotification imageRef type =
        NotificationDispatch.direct (slotNotification imageRef type) ↔
      (type.id = KisImageSignalId.LayersChangedSignal ∨
       type.id = KisImageSignalId.NodeReselectionRequestSignal)) ∧
    (emitNotification imageRef type = NotificationDispatch.queued type ↔
      ¬(type.id = KisImageSignalId.LayersChangedSignal ∨
        type.id = KisImageSignalId.NodeReselectionRequestSignal)) := by
  by_cases h : type.id = KisImageSignalId.LayersChangedSignal ∨
      type.id = KisImageSignalId.NodeReselectionRequestSignal <;>
    simp [emitNotification, h]

/-- C8: a NodeReselectionRequest notification whose new-active-node
reference is empty and whose new-selected-nodes list is empty is
suppressed entirely by slotNotification; with either non-empty, the
reselection signal is emitted with that payload (stated for a live
image reference; a dead weak reference suppresses every notification
by construction). -/
theorem C8_nodeReselection_filter (image : KisImage)
    (newActiveNode : Option NodeId) (newSelectedNodes : List NodeId) :
    (slotNotification (some image)
        { id := KisImageSignalId.NodeReselectionRequestSignal
          newActiveNode := newActiveNode
          newSelectedNodes := newSelectedNodes }).emitted =
      (if newActiveNode = none ∧ newSelectedNodes = [] then []
       else [EmittedSignal.sigRequestNodeReselection newActiveNode
               newSelectedNodes]) := by
  cases newActiveNode <;> cases newSelectedNodes <;>
    simp [slotNotification]

/-- C9: when a regeneration-job start is attempted while the image
reports locked(), no job is submitted; the update signal compressor is
restarted and the mask's state is otherwise unchanged. -/
theorem C9_locked_image_defers_regeneration (m : KisTransformMask)
    (parentLayer : KisLayer) (image : KisImage)
    (hParent : m.parentLayer = some parentLayer)
    (hImage : parentLayer.image = some image)
    (hLocked : image.locked = true) :
    m.startAsyncRegenerationJob = ({ m with compressorActive := true }, []) := by
  simp [KisTransformMask.startAsyncRegenerationJob, hParent, hImage, hLocked]

theorem C9_witness :
    lockedMask.parentLayer = some lockedLayer ∧
    lockedLayer.image = some lockedImage ∧
    lockedImage.locked = true ∧
    lockedMask.startAsyncRegenerationJob =
      ({ lockedMask with compressorActive := true }, []) :=
  ⟨rfl, rfl, rfl,
   C9_locked_image_defers_regeneration lockedMask lockedLayer lockedImage
     rfl rfl rfl⟩

/-- C10: decorateRect returns exactly its input rect on every execution
path (hidden params, external-frame rendering, cache recalculation,
partial transform, cache fetch, and the fall-through alike). -/
theorem C10_decorateRect_returns_rc (m : KisTransformMask)
    (src dst : KisPaintDevice) (rc : QRect) (maskPos : PositionToFilthy)
    (flags : KisRenderPassFlags) :
    (m.decorateRect src dst rc maskPos flags).2.2 = rc := by
  unfold KisTransformMask.decorateRect
  dsimp only
  repeat' split
  all_goals rfl

/-- C5: for the transform-mask node and every position argument,
changeRect applied to an empty rectangle returns that rectangle
unchanged, and needRect applied to an empty rectangle returns that
rectangle unchanged (short-circuit before any transform math, for
affine and non-affine params alike). -/
theorem C5_empty_rect_shortcircuit (m : KisTransformMask) (rect : QRect)
    (pos1 pos2 : PositionToFilthy) (h : rect.isEmpty = true) :
    m.changeRect rect pos1 = rect ∧ m.needRect rect pos2 = rect := by
  constructor
  · unfold KisTransformMask.changeRect
    rw [h]
    simp
  · unfold KisTransformMask.needRect
    rw [h]
    simp

theorem C5_witness :
    QRect.null.isEmpty = true ∧
    (sampleMask.changeRect QRect.null PositionToFilthy.N_FILTHY = QRect.null ∧
     sampleMask.needRect QRect.null PositionToFilthy.N_BELOW_FILTHY = QRect.null) :=
  ⟨by decide,
   C5_empty_rect_shortcircuit sampleMask QRect.null
     PositionToFilthy.N_FILTHY PositionToFilthy.N_BELOW_FILTHY (by decide)⟩

theorem notifyTimes_while_blocked (n : ℕ) (s : KisPaintOpPresetUpdateProxy)
    (h : s.updatesBlocked ≠ 0) :
    notifyTimes n s =
      ({ s with numUpdatesWhileBlocked := s.numUpdatesWhileBlocked + n }, []) := by
  induction n generalizing s with
  | zero => simp [notifyTimes]
  | succ k ih =>
      have hs : ({ s with numUpdatesWhileBlocked := s.numUpdatesWhileBlocked + 1 } :
          KisPaintOpPresetUpdateProxy).updatesBlocked ≠ 0 := h
      unfold notifyTimes KisPaintOpPresetUpdateProxy.notifySettingsChanged
      rw [if_pos h]
      simp only []
      rw [ih _ hs]
      simp only [List.nil_append, Prod.mk.injEq,
        KisPaintOpPresetUpdateProxy.mk.injEq, and_true, true_and]
      push_cast
      omega

/-- C3 (counterexample): with N = 0 calls to notify() while postponed,
the single unpostpone() produces no events at all, not one of each —
the suppressed-update counter is zero, so the delivery branch of
unpostponeSettingsChanges is skipped. -/
theorem C3_counterexample :
    ¬((postponeScenarioEvents 0).count ProxyEvent.earlyWarning = 1 ∧
      (postponeScenarioEvents 0).count ProxyEvent.uncompressed = 1 ∧
      (postponeScenarioEvents 0).count ProxyEvent.settingsChanged = 1) := by
  decide

/-- C3 (amended): for every N ≥ 1, N calls to notify() while postponed,
followed by exactly one unpostpone() that brings the postponement count
to zero, produce exactly 1 early-warning event, 1 uncompressed event and
1 terminal (coalesced) event; for N = 0 no events are produced at all. -/
theorem C3_postpone_coalescing (n : ℕ) (h : 1 ≤ n) :
    (postponeScenarioEvents n).count ProxyEvent.earlyWarning = 1 ∧
    (postponeScenarioEvents n).count ProxyEvent.uncompressed = 1 ∧
    (postponeScenarioEvents n).count ProxyEvent.settingsChanged = 1 := by
  have hn : (0 : ℤ) + (n : ℤ) ≠ 0 := by
    have h1 : (1 : ℤ) ≤ (n : ℤ) := by exact_mod_cast h
    omega
  have hrun : notifyTimes n (⟨1, 0, false⟩ : KisPaintOpPresetUpdateProxy) =
      (⟨1, 0 + (n : ℤ), false⟩, []) := by
    simpa using notifyTimes_while_blocked n ⟨1, 0, false⟩ (by norm_num)
  have hpost : KisPaintOpPresetUpdateProxy.init.postponeSettingsChanges =
      (⟨1, 0, false⟩ : KisPaintOpPresetUpdateProxy) := by
    simp [KisPaintOpPresetUpdateProxy.init,
      KisPaintOpPresetUpdateProxy.postponeSettingsChanges]
  unfold postponeScenarioEvents
  rw [hpost]
  dsimp only
  rw [hrun]
  dsimp only
  unfold KisPaintOpPresetUpdateProxy.unpostponeSettingsChanges
  dsimp only
  rw [if_pos]
  · simp
  · exact ⟨by norm_num, hn⟩

theorem C3_witness :
    1 ≤ 5 ∧
    ((postponeScenarioEvents 5).count ProxyEvent.earlyWarning = 1 ∧
     (postponeScenarioEvents 5).count ProxyEvent.uncompressed = 1 ∧
     (postponeScenarioEvents 5).count ProxyEvent.settingsChanged = 1) :=
  ⟨by decide, C3_postpone_coalescing 5 (by decide)⟩

/-- C4 (counterexample): on a storage whose backing cache device was
never allocated, overrideStaticCacheDevice(device) is a safe-assert
no-op: it does not set the overridden flag to bool(device). -/
theorem C4_counterexample :
    ((StaticCacheStorage.init ℕ).overrideStaticCacheDevice
        (some onePixelDevice)).staticCacheIsOverridden = false ∧
    (some onePixelDevice).isSome = true := by
  decide

/-- C4 (amended): provided the backing cache device has been allocated,
overrideStaticCacheDevice(device) replaces the cache content with the
supplied bitmap (or clears it to empty when device is null), sets both
the overridden and valid flags to bool(device), and drops validFor; in
particular overrideStaticCacheDevice(null) after a prior (allocated)
override leaves isCacheValid() false and isCacheOverridden() false.
When the device was never allocated the call is a safe-assert no-op. -/
theorem C4_overrideStaticCacheDevice {P : Type} (cmp : P → P → Bool)
    (s : StaticCacheStorage P) (cacheDev : KisPaintDevice)
    (device : Option KisPaintDevice) (d : KisPaintDevice) (q : P)
    (h : s.staticCacheDevice = some cacheDev) :
    ((s.overrideStaticCacheDevice device).staticCacheValid = device.isSome ∧
     (s.overrideStaticCacheDevice device).staticCacheIsOverridden = device.isSome ∧
     (s.overrideStaticCacheDevice device).paramsForStaticImage = none) ∧
    (∃ newDev, (s.overrideStaticCacheDevice device).staticCacheDevice = some newDev ∧
       newDev.pixels = (match device with
                        | some dev => dev.pixels
                        | none => [])) ∧
    (((s.overrideStaticCacheDevice (some d)).overrideStaticCacheDevice
        none).staticCacheIsOverridden = false ∧
     ((s.overrideStaticCacheDevice (some d)).overrideStaticCacheDevice
        none).isCacheValid cmp q = false) := by
  refine ⟨?_, ?_, ?_⟩
  · unfold StaticCacheStorage.overrideStaticCacheDevice
    rw [h]
    exact ⟨rfl, rfl, rfl⟩
  · unfold StaticCacheStorage.overrideStaticCacheDevice
    rw [h]
    cases device with
    | none => exact ⟨cacheDev.clear, rfl, rfl⟩
    | some dev =>
        refine ⟨_, rfl, ?_⟩
        unfold copyAreaOptimized KisPaintDevice.clear
        simp only [List.filter_nil, List.nil_append]
        exact List.filter_eq_self.mpr (fun p hp => dev.mem_extent p hp)
  · unfold StaticCacheStorage.overrideStaticCacheDevice
    rw [h]
    exact ⟨rfl, rfl⟩

theorem C4_witness :
    allocatedStorage.staticCacheDevice = some emptyDevice ∧
    (((allocatedStorage.overrideStaticCacheDevice
          (some onePixelDevice)).staticCacheValid = (some onePixelDevice).isSome ∧
      (allocatedStorage.overrideStaticCacheDevice
          (some onePixelDevice)).staticCacheIsOverridden = (some onePixelDevice).isSome ∧
      (allocatedStorage.overrideStaticCacheDevice
          (some onePixelDevice)).paramsForStaticImage = none) ∧
     (∃ newDev, (allocatedStorage.overrideStaticCacheDevice
          (some onePixelDevice)).staticCacheDevice = some newDev ∧
        newDev.pixels = (match some onePixelDevice with
                         | some dev => dev.pixels
                         | none => [])) ∧
     (((allocatedStorage.overrideStaticCacheDevice
          (some onePixelDevice)).overrideStaticCacheDevice
            none).staticCacheIsOverridden = false ∧
      ((allocatedStorage.overrideStaticCacheDevice
          (some onePixelDevice)).overrideStaticCacheDevice
            none).isCacheValid Nat.beq 7 = false)) :=
  ⟨rfl, C4_overrideStaticCacheDevice Nat.beq allocatedStorage emptyDevice
     (some onePixelDevice) onePixelDevice 7 rfl⟩

/-- C6 (counterexample): the overridden state reached by allocating and
then overriding the cache satisfies the invariant overridden ⇒ valid,
but invalidateDeviceCache breaks it: the valid flag is cleared while
the overridden flag is left set (the source only safe-asserts that the
cache is not overridden and proceeds anyway). -/
theorem C6_counterexample :
    CacheInv overriddenStorage ∧
    ¬CacheInv overriddenStorage.invalidateDeviceCache := by
  constructor
  · intro _
    decide
  · intro hInv
    have h1 : overriddenStorage.invalidateDeviceCache.staticCacheIsOverridden = true := by
      decide
    have h2 := hInv h1
    revert h2
    decide

/-- C6 (amended): the invariant overridden ⇒ valid is preserved by the
reads (isCacheValid, isCacheOverridden do not mutate the state) and by
lazyAllocateStaticCache, setDeviceCacheValid and
overrideStaticCacheDevice from any state satisfying it;
invalidateDeviceCache preserves it only under its asserted precondition
that the cache is not overridden. -/
theorem C6_cacheInv_preservation {P : Type} (s : StaticCacheStorage P)
    (cs db : ℕ) (params : P) (device : Option KisPaintDevice)
    (hInv : CacheInv s) :
    CacheInv (s.lazyAllocateStaticCache cs db) ∧
    CacheInv (s.setDeviceCacheValid params) ∧
    CacheInv (s.overrideStaticCacheDevice device) ∧
    (s.staticCacheIsOverridden = false → CacheInv s.invalidateDeviceCache) := by
  refine ⟨?_, ?_, ?_, ?_⟩
  · unfold StaticCacheStorage.lazyAllocateStaticCache
    rcases hd : s.staticCacheDevice with _ | d
    · exact hInv
    · by_cases hc : d.colorSpace ≠ cs <;> simp [hc] <;> exact hInv
  · intro _
    rfl
  · unfold StaticCacheStorage.overrideStaticCacheDevice
    rcases hd : s.staticCacheDevice with _ | d
    · exact hInv
    · cases device <;> intro h <;> simpa using h
  · intro hOver hCon
    unfold StaticCacheStorage.invalidateDeviceCache at hCon
    simp only at hCon
    rw [hOver] at hCon
    cases hCon

theorem C6_witness :
    CacheInv (StaticCacheStorage.init ℕ) ∧
    (CacheInv ((StaticCacheStorage.init ℕ).lazyAllocateStaticCache 0 0) ∧
     CacheInv ((StaticCacheStorage.init ℕ).setDeviceCacheValid 7) ∧
     CacheInv ((StaticCacheStorage.init ℕ).overrideStaticCacheDevice
       (some onePixelDevice)) ∧
     ((StaticCacheStorage.init ℕ).staticCacheIsOverridden = false →
      CacheInv (StaticCacheStorage.init ℕ).invalidateDeviceCache)) := by
  refine ⟨?_, C6_cacheInv_preservation (StaticCacheStorage.init ℕ) 0 0 7
    (some onePixelDevice) ?_⟩ <;> intro h <;> cases h

theorem affine_box_bounds (a c e x y x0 x1 y0 y1 : ℚ)
    (hx0 : x0 ≤ x) (hx1 : x ≤ x1) (hy0 : y0 ≤ y) (hy1 : y ≤ y1) :
    min (min (a * x0 + c * y0 + e) (a * x1 + c * y0 + e))
        (min (a * x0 + c * y1 + e) (a * x1 + c * y1 + e)) ≤ a * x + c * y + e ∧
    a * x + c * y + e ≤
      max (max (a * x0 + c * y0 + e) (a * x1 + c * y0 + e))
          (max (a * x0 + c * y1 + e) (a * x1 + c * y1 + e)) := by
  constructor
  · rcases le_total 0 a with ha | ha <;> rcases le_total 0 c with hc | hc
    · exact le_trans (le_trans (min_le_left _ _) (min_le_left _ _))
        (by nlinarith [mul_nonneg ha (sub_nonneg.mpr hx0),
          mul_nonneg hc (sub_nonneg.mpr hy0)])
    · exact le_trans (le_trans (min_le_right _ _) (min_le_left _ _))
        (by nlinarith [mul_nonneg ha (sub_nonneg.mpr hx0),
          mul_nonneg (neg_nonneg.mpr hc) (sub_nonneg.mpr hy1)])
    · exact le_trans (le_trans (min_le_left _ _) (min_le_right _ _))
        (by nlinarith [mul_nonneg (neg_nonneg.mpr ha) (sub_nonneg.mpr hx1),
          mul_nonneg hc (sub_nonneg.mpr hy0)])
    · exact le_trans (le_trans (min_le_right _ _) (min_le_right _ _))
        (by nlinarith [mul_nonneg (neg_nonneg.mpr ha) (sub_nonneg.mpr hx1),
          mul_nonneg (neg_nonneg.mpr hc) (sub_nonneg.mpr hy1)])
  · rcases le_total 0 a with ha | ha <;> rcases le_total 0 c with hc | hc
    · exact le_trans
        (by nlinarith [mul_nonneg ha (sub_nonneg.mpr hx1),
          mul_nonneg hc (sub_nonneg.mpr hy1)])
        (le_trans (le_max_right _ _) (le_max_right _ _))
    · exact le_trans
        (by nlinarith [mul_nonneg ha (sub_nonneg.mpr hx1),
          mul_nonneg (neg_nonneg.mpr hc) (sub_nonneg.mpr hy0)])
        (le_trans (le_max_right _ _) (le_max_left _ _))
    · exact le_trans
        (by nlinarith [mul_nonneg (neg_nonneg.mpr ha) (sub_nonneg.mpr hx0),
          mul_nonneg hc (sub_nonneg.mpr hy1)])
        (le_trans (le_max_left _ _) (le_max_right _ _))
    · exact le_trans
        (by nlinarith [mul_nonneg (neg_nonneg.mpr ha) (sub_nonneg.mpr hx0),
          mul_nonneg (neg_nonneg.mpr hc) (sub_nonneg.mpr hy0)])
        (le_trans (le_max_left _ _) (le_max_left _ _))

/-- Any real point of the rect's covered region is mapped into the real
region covered by the aligned forward image rect. -/
theorem mapRectAligned_bounds (t : QTransform) (r : QRect) (x y : ℚ)
    (hx0 : (r.left : ℚ) ≤ x) (hx1 : x ≤ (r.right : ℚ) + 1)
    (hy0 : (r.top : ℚ) ≤ y) (hy1 : y ≤ (r.bottom : ℚ) + 1) :
    ((t.mapRectAligned r).left : ℚ) ≤ (t.mapQ (x, y)).1 ∧
    (t.mapQ (x, y)).1 ≤ ((t.mapRectAligned r).right : ℚ) + 1 ∧
    ((t.mapRectAligned r).top : ℚ) ≤ (t.mapQ (x, y)).2 ∧
    (t.mapQ (x, y)).2 ≤ ((t.mapRectAligned r).bottom : ℚ) + 1 := by
  have hbx := affine_box_bounds t.m11 t.m21 t.dx x y (r.left : ℚ)
    ((r.right : ℚ) + 1) (r.top : ℚ) ((r.bottom : ℚ) + 1) hx0 hx1 hy0 hy1
  have hby := affine_box_bounds t.m12 t.m22 t.dy x y (r.left : ℚ)
    ((r.right : ℚ) + 1) (r.top : ℚ) ((r.bottom : ℚ) + 1) hx0 hx1 hy0 hy1
  unfold QTransform.mapRectAligned QTransform.mapQ
  dsimp only
  obtain ⟨hbx1, hbx2⟩ := hbx
  obtain ⟨hby1, hby2⟩ := hby
  refine ⟨?_, ?_, ?_, ?_⟩
  · exact le_trans (ratFloor_le _) hbx1
  · have h2 := le_ratCeil (max (max (t.m11 * ↑r.left + t.m21 * ↑r.top + t.dx)
      (t.m11 * (↑r.right + 1) + t.m21 * ↑r.top + t.dx))
      (max (t.m11 * ↑r.left + t.m21 * (↑r.bottom + 1) + t.dx)
      (t.m11 * (↑r.right + 1) + t.m21 * (↑r.bottom + 1) + t.dx)))
    push_cast
    linarith
  · exact le_trans (ratFloor_le _) hby1
  · have h2 := le_ratCeil (max (max (t.m12 * ↑r.left + t.m22 * ↑r.top + t.dy)
      (t.m12 * (↑r.right + 1) + t.m22 * ↑r.top + t.dy))
      (max (t.m12 * ↑r.left + t.m22 * (↑r.bottom + 1) + t.dy)
      (t.m12 * (↑r.right + 1) + t.m22 * (↑r.bottom + 1) + t.dy)))
    push_cast
    linarith

theorem min4_lt_max4_of_ne_fst {A B C D : ℚ} (h : A ≠ B) :
    min (min A B) (min C D) < max (max A B) (max C D) := by
  rcases lt_or_gt_of_ne h with hlt | hlt
  · exact lt_of_le_of_lt (le_trans (min_le_left _ _) (min_le_left _ _))
      (lt_of_lt_of_le hlt (le_trans (le_max_right _ _) (le_max_left _ _)))
  · exact lt_of_le_of_lt (le_trans (min_le_left _ _) (min_le_right _ _))
      (lt_of_lt_of_le hlt (le_trans (le_max_left _ _) (le_max_left _ _)))

theorem min4_lt_max4_of_ne_snd {A B C D : ℚ} (h : A ≠ C) :
    min (min A B) (min C D) < max (max A B) (max C D) := by
  rcases lt_or_gt_of_ne h with hlt | hlt
  · exact lt_of_le_of_lt (le_trans (min_le_left _ _) (min_le_left _ _))
      (lt_of_lt_of_le hlt (le_trans (le_max_left _ _) (le_max_right _ _)))
  · exact lt_of_le_of_lt (le_trans (min_le_right _ _) (min_le_left _ _))
      (lt_of_lt_of_le hlt (le_trans (le_max_left _ _) (le_max_left _ _)))

/-- The aligned image rect of a nonempty rect under a nondegenerate
affine transform is nonempty. -/
theorem mapRectAligned_nonempty (t : QTransform) (r : QRect)
    (hdet : t.det ≠ 0) (hr : r.isEmpty = false) :
    (t.mapRectAligned r).isEmpty = false := by
  have hlr : r.left ≤ r.right ∧ r.top ≤ r.bottom := by
    simp only [QRect.isEmpty, Bool.or_eq_false_iff, decide_eq_false_iff_not,
      not_lt] at hr
    omega
  have hx01 : (r.left : ℚ) < (r.right : ℚ) + 1 := by
    have hc : (r.left : ℚ) ≤ (r.right : ℚ) := by exact_mod_cast hlr.1
    linarith
  have hy01 : (r.top : ℚ) < (r.bottom : ℚ) + 1 := by
    have hc : (r.top : ℚ) ≤ (r.bottom : ℚ) := by exact_mod_cast hlr.2
    linarith
  have hxne : t.m11 ≠ 0 ∨ t.m21 ≠ 0 := by
    by_contra hcon
    push_neg at hcon
    apply hdet
    unfold QTransform.det
    rw [hcon.1, hcon.2]
    ring
  have hyne : t.m12 ≠ 0 ∨ t.m22 ≠ 0 := by
    by_contra hcon
    push_neg at hcon
    apply hdet
    unfold QTransform.det
    rw [hcon.1, hcon.2]
    ring
  have hxlt :
      min (min (t.mapQ ((r.left : ℚ), (r.top : ℚ))).1 (t.mapQ ((r.right : ℚ) + 1, (r.top : ℚ))).1)
          (min (t.mapQ ((r.left : ℚ), (r.bottom : ℚ) + 1)).1 (t.mapQ ((r.right : ℚ) + 1, (r.bottom : ℚ) + 1)).1) <
      max (max (t.mapQ ((r.left : ℚ), (r.top : ℚ))).1 (t.mapQ ((r.right : ℚ) + 1, (r.top : ℚ))).1)
          (max (t.mapQ ((r.left : ℚ), (r.bottom : ℚ) + 1)).1 (t.mapQ ((r.right : ℚ) + 1, (r.bottom : ℚ) + 1)).1) := by
    rcases hxne with h11 | h21
    · apply min4_lt_max4_of_ne_fst
      unfold QTransform.mapQ
      dsimp only
      intro heq
      apply h11
      have h0 : t.m11 * (((r.right : ℚ) + 1) - (r.left : ℚ)) = 0 := by linear_combination -heq
      rcases mul_eq_zero.mp h0 with h | h
      · exact h
      · exact absurd (sub_eq_zero.mp h) (ne_of_gt hx01)
    · apply min4_lt_max4_of_ne_snd
      unfold QTransform.mapQ
      dsimp only
      intro heq
      apply h21
      have h0 : t.m21 * (((r.bottom : ℚ) + 1) - (r.top : ℚ)) = 0 := by linear_combination -heq
      rcases mul_eq_zero.mp h0 with h | h
      · exact h
      · exact absurd (sub_eq_zero.mp h) (ne_of_gt hy01)
  have hylt :
      min (min (t.mapQ ((r.left : ℚ), (r.top : ℚ))).2 (t.mapQ ((r.right : ℚ) + 1, (r.top : ℚ))).2)
          (min (t.mapQ ((r.left : ℚ), (r.bottom : ℚ) + 1)).2 (t.mapQ ((r.right : ℚ) + 1, (r.bottom : ℚ) + 1)).2) <
      max (max (t.mapQ ((r.left : ℚ), (r.top : ℚ))).2 (t.mapQ ((r.right : ℚ) + 1, (r.top : ℚ))).2)
          (max (t.mapQ ((r.left : ℚ), (r.bottom : ℚ) + 1)).2 (t.mapQ ((r.right : ℚ) + 1, (r.bottom : ℚ) + 1)).2) := by
    rcases hyne with h12 | h22
    · apply min4_lt_max4_of_ne_fst
      unfold QTransform.mapQ
      dsimp only
      intro heq
      apply h12
      have h0 : t.m12 * (((r.right : ℚ) + 1) - (r.left : ℚ)) = 0 := by linear_combination -heq
      rcases mul_eq_zero.mp h0 with h | h
      · exact h
      · exact absurd (sub_eq_zero.mp h) (ne_of_gt hx01)
    · apply min4_lt_max4_of_ne_snd
      unfold QTransform.mapQ
      dsimp only
      intro heq
      apply h22
      have h0 : t.m22 * (((r.bottom : ℚ) + 1) - (r.top : ℚ)) = 0 := by linear_combination -heq
      rcases mul_eq_zero.mp h0 with h | h
      · exact h
      · exact absurd (sub_eq_zero.mp h) (ne_of_gt hy01)
  unfold QTransform.mapRectAligned
  dsimp only
  have h1 : ratFloor
      (min (min (t.mapQ ((r.left : ℚ), (r.top : ℚ))).1 (t.mapQ ((r.right : ℚ) + 1, (r.top : ℚ))).1)
        (min (t.mapQ ((r.left : ℚ), (r.bottom : ℚ) + 1)).1 (t.mapQ ((r.right : ℚ) + 1, (r.bottom : ℚ) + 1)).1)) <
      ratCeil
      (max (max (t.mapQ ((r.left : ℚ), (r.top : ℚ))).1 (t.mapQ ((r.right : ℚ) + 1, (r.top : ℚ))).1)
        (max (t.mapQ ((r.left : ℚ), (r.bottom : ℚ) + 1)).1 (t.mapQ ((r.right : ℚ) + 1, (r.bottom : ℚ) + 1)).1)) :=
    int_lt_ratCeil (lt_of_le_of_lt (ratFloor_le _) hxlt)
  have h2 : ratFloor
      (min (min (t.mapQ ((r.left : ℚ), (r.top : ℚ))).2 (t.mapQ ((r.right : ℚ) + 1, (r.top : ℚ))).2)
        (min (t.mapQ ((r.left : ℚ), (r.bottom : ℚ) + 1)).2 (t.mapQ ((r.right : ℚ) + 1, (r.bottom : ℚ) + 1)).2)) <
      ratCeil
      (max (max (t.mapQ ((r.left : ℚ), (r.top : ℚ))).2 (t.mapQ ((r.right : ℚ) + 1, (r.top : ℚ))).2)
        (max (t.mapQ ((r.left : ℚ), (r.bottom : ℚ) + 1)).2 (t.mapQ ((r.right : ℚ) + 1, (r.bottom : ℚ) + 1)).2)) :=
    int_lt_ratCeil (lt_of_le_of_lt (ratFloor_le _) hylt)
  simp only [QRect.isEmpty, Bool.or_eq_false_iff, decide_eq_false_iff_not,
    not_lt]
  omega

theorem ratCeil_eq_ceil (q : ℚ) : ratCeil q = ⌈q⌉ := by
  unfold ratCeil
  rw [ratFloor_eq_floor, Int.floor_neg, neg_neg]

theorem QRect.intersected_left (r s : QRect) :
    (r.intersected s).left = max r.left s.left := rfl

theorem QRect.intersected_top (r s : QRect) :
    (r.intersected s).top = max r.top s.top := rfl

theorem QRect.intersected_right (r s : QRect) :
    (r.intersected s).right = min r.right s.right := rfl

theorem QRect.intersected_bottom (r s : QRect) :
    (r.intersected s).bottom = min r.bottom s.bottom := rfl

/-- C2 (counterexample): the original universal round-trip claim fails
on concrete affine transform masks: (a) a degenerate (det = 0) affine
transform collapses changeRect to an empty rect, which needRect
short-circuits, covering nothing; (b) with the safety clamp, a rect far
outside the blown parent bounds is not covered; (c) even a point inside
the clamp rect is lost when its forward image falls outside the clamp
(nondegenerate stretch transform). -/
theorem C2_counterexample :
    (zeroDetMask.params.isAffine = true ∧
     sampleRect.containsPoint (0, 0) = true ∧
     (zeroDetMask.needRect
         (zeroDetMask.changeRect sampleRect PositionToFilthy.N_FILTHY)
         PositionToFilthy.N_BELOW_FILTHY).containsPoint (0, 0) = false) ∧
    (zeroMarginMask.params.isAffine = true ∧
     farRect.containsPoint (200, 200) = true ∧
     (zeroMarginMask.needRect
         (zeroMarginMask.changeRect farRect PositionToFilthy.N_FILTHY)
         PositionToFilthy.N_BELOW_FILTHY).containsPoint (200, 200) = false) ∧
    (stretchMask.params.isAffine = true ∧
     stretchMask.params.finalAffineTransform.det ≠ 0 ∧
     straddleRect.containsPoint (61, 50) = true ∧
     stretchMask.safeLimitingRect.containsPoint (61, 50) = true ∧
     (stretchMask.needRect
         (stretchMask.changeRect straddleRect PositionToFilthy.N_FILTHY)
         PositionToFilthy.N_BELOW_FILTHY).containsPoint (61, 50) = false) := by
  refine ⟨⟨rfl, by decide, ?_⟩, ⟨rfl, by decide, ?_⟩, ⟨rfl, ?_, by decide, ?_, ?_⟩⟩ <;>
    norm_num [zeroDetMask, zeroDetParams, zeroMarginMask, stretchMask,
      stretchParams, idParams, idTransform, sampleMask, sampleLayer,
      sampleRect, farRect, straddleRect, KisTransformMask.changeRect,
      KisTransformMask.needRect, KisTransformMask.safeLimitingRect,
      KisSafeTransform.mapRectForward, KisSafeTransform.mapRectBackward,
      QTransform.mapRectAligned, QTransform.mapQ, QTransform.inverted,
      QTransform.det, QRect.intersected, QRect.isEmpty, QRect.containsPoint,
      QRect.width, QRect.height, QRect.adjusted, blowRect, kisGrowRect,
      ratFloor_eq_floor, ratCeil_eq_ceil, min_def, max_def]

/-- C2 (amended): for a transform mask whose affine transform is
nondegenerate (det ≠ 0), needRect(changeRect(R)) covers every point of
R that lies within the safety-clamp rect (the parent bounds blown by
the off-bounds-read margin) and whose image under the transform also
lies within the clamp's real region (round-trip coverage, not exact
equality).  Outside the clamp the domain restriction can drop points,
and a degenerate transform collapses the forward rect entirely. -/
theorem C2_needRect_changeRect_roundtrip (m : KisTransformMask) (rect : QRect)
    (x y : ℤ) (pos1 pos2 : PositionToFilthy)
    (haff : m.params.isAffine = true)
    (hdet : m.params.finalAffineTransform.det ≠ 0)
    (hp : rect.containsPoint (x, y) = true)
    (hpL : m.safeLimitingRect.containsPoint (x, y) = true)
    (himg1 : (m.safeLimitingRect.left : ℚ) ≤
      (m.params.finalAffineTransform.mapQ ((x : ℚ), (y : ℚ))).1)
    (himg2 : (m.params.finalAffineTransform.mapQ ((x : ℚ), (y : ℚ))).1 ≤
      (m.safeLimitingRect.right : ℚ) + 1)
    (himg3 : (m.safeLimitingRect.top : ℚ) ≤
      (m.params.finalAffineTransform.mapQ ((x : ℚ), (y : ℚ))).2)
    (himg4 : (m.params.finalAffineTransform.mapQ ((x : ℚ), (y : ℚ))).2 ≤
      (m.safeLimitingRect.bottom : ℚ) + 1) :
    (m.needRect (m.changeRect rect pos1) pos2).containsPoint (x, y) = true := by
  obtain ⟨h1, h2, h3, h4⟩ :
      rect.left ≤ x ∧ x ≤ rect.right ∧ rect.top ≤ y ∧ y ≤ rect.bottom := by
    simpa [QRect.containsPoint, and_assoc] using hp
  obtain ⟨hL1, hL2, hL3, hL4⟩ :
      m.safeLimitingRect.left ≤ x ∧ x ≤ m.safeLimitingRect.right ∧
      m.safeLimitingRect.top ≤ y ∧ y ≤ m.safeLimitingRect.bottom := by
    simpa [QRect.containsPoint, and_assoc] using hpL
  have hne : rect.isEmpty = false := by
    simp only [QRect.isEmpty, Bool.or_eq_false_iff, decide_eq_false_iff_not,
      not_lt]
    omega
  set L := m.safeLimitingRect with hLdef
  set t := m.params.finalAffineTransform with ht
  have hRLne : (rect.intersected L).isEmpty = false := by
    simp only [QRect.intersected, QRect.isEmpty, Bool.or_eq_false_iff,
      decide_eq_false_iff_not, not_lt]
    constructor
    · exact le_trans (max_le h1 hL1) (le_min h2 hL2)
    · exact le_trans (max_le h3 hL3) (le_min h4 hL4)
  have hchange : m.changeRect rect pos1 = t.mapRectAligned (rect.intersected L) := by
    unfold KisTransformMask.changeRect
    rw [hne]
    simp [haff, KisSafeTransform.mapRectForward, ← hLdef, ← ht]
  have hFne : (t.mapRectAligned (rect.intersected L)).isEmpty = false :=
    mapRectAligned_nonempty t (rect.intersected L) hdet hRLne
  have hneed : m.needRect (t.mapRectAligned (rect.intersected L)) pos2 =
      kisGrowRect (t.inverted.mapRectAligned
        ((t.mapRectAligned (rect.intersected L)).intersected L)) 1 := by
    unfold KisTransformMask.needRect
    rw [hFne]
    simp [haff, KisSafeTransform.mapRectBackward, ← hLdef, ← ht]
  rw [hchange, hneed]
  have hx0 : ((rect.intersected L).left : ℚ) ≤ (x : ℚ) := by
    rw [QRect.intersected_left]
    push_cast
    exact max_le (by exact_mod_cast h1) (by exact_mod_cast hL1)
  have hx1 : (x : ℚ) ≤ ((rect.intersected L).right : ℚ) + 1 := by
    rw [QRect.intersected_right]
    push_cast
    have hm : (x : ℚ) ≤ min (rect.right : ℚ) (L.right : ℚ) :=
      le_min (by exact_mod_cast h2) (by exact_mod_cast hL2)
    linarith
  have hy0 : ((rect.intersected L).top : ℚ) ≤ (y : ℚ) := by
    rw [QRect.intersected_top]
    push_cast
    exact max_le (by exact_mod_cast h3) (by exact_mod_cast hL3)
  have hy1 : (y : ℚ) ≤ ((rect.intersected L).bottom : ℚ) + 1 := by
    rw [QRect.intersected_bottom]
    push_cast
    have hm : (y : ℚ) ≤ min (rect.bottom : ℚ) (L.bottom : ℚ) :=
      le_min (by exact_mod_cast h4) (by exact_mod_cast hL4)
    linarith
  obtain ⟨hf1, hf2, hf3, hf4⟩ :=
    mapRectAligned_bounds t (rect.intersected L) (x : ℚ) (y : ℚ) hx0 hx1 hy0 hy1
  have hg1 : (((t.mapRectAligned (rect.intersected L)).intersected L).left : ℚ) ≤
      (t.mapQ ((x : ℚ), (y : ℚ))).1 := by
    rw [QRect.intersected_left]
    push_cast
    exact max_le hf1 himg1
  have hg2 : (t.mapQ ((x : ℚ), (y : ℚ))).1 ≤
      (((t.mapRectAligned (rect.intersected L)).intersected L).right : ℚ) + 1 := by
    rw [QRect.intersected_right]
    push_cast
    have hm : (t.mapQ ((x : ℚ), (y : ℚ))).1 - 1 ≤
        min ((t.mapRectAligned (rect.intersected L)).right : ℚ) (L.right : ℚ) :=
      le_min (by linarith) (by linarith)
    linarith
  have hg3 : (((t.mapRectAligned (rect.intersected L)).intersected L).top : ℚ) ≤
      (t.mapQ ((x : ℚ), (y : ℚ))).2 := by
    rw [QRect.intersected_top]
    push_cast
    exact max_le hf3 himg3
  have hg4 : (t.mapQ ((x : ℚ), (y : ℚ))).2 ≤
      (((t.mapRectAligned (rect.intersected L)).intersected L).bottom : ℚ) + 1 := by
    rw [QRect.intersected_bottom]
    push_cast
    have hm : (t.mapQ ((x : ℚ), (y : ℚ))).2 - 1 ≤
        min ((t.mapRectAligned (rect.intersected L)).bottom : ℚ) (L.bottom : ℚ) :=
      le_min (by linarith) (by linarith)
    linarith
  obtain ⟨hb1, hb2, hb3, hb4⟩ :=
    mapRectAligned_bounds t.inverted
      ((t.mapRectAligned (rect.intersected L)).intersected L)
      (t.mapQ ((x : ℚ), (y : ℚ))).1 (t.mapQ ((x : ℚ), (y : ℚ))).2
      hg1 hg2 hg3 hg4
  have heta : ((t.mapQ ((x : ℚ), (y : ℚ))).1, (t.mapQ ((x : ℚ), (y : ℚ))).2) =
      t.mapQ ((x : ℚ), (y : ℚ)) := rfl
  rw [heta, QTransform.inverted_mapQ t hdet ((x : ℚ), (y : ℚ))] at hb1 hb2 hb3 hb4
  dsimp only at hb1 hb2 hb3 hb4
  have hbL : (t.inverted.mapRectAligned
      ((t.mapRectAligned (rect.intersected L)).intersected L)).left ≤ x := by
    exact_mod_cast hb1
  have hbR : x ≤ (t.inverted.mapRectAligned
      ((t.mapRectAligned (rect.intersected L)).intersected L)).right + 1 := by
    exact_mod_cast hb2
  have hbT : (t.inverted.mapRectAligned
      ((t.mapRectAligned (rect.intersected L)).intersected L)).top ≤ y := by
    exact_mod_cast hb3
  have hbB : y ≤ (t.inverted.mapRectAligned
      ((t.mapRectAligned (rect.intersected L)).intersected L)).bottom + 1 := by
    exact_mod_cast hb4
  simp only [kisGrowRect, QRect.adjusted, QRect.containsPoint,
    Bool.and_eq_true, decide_eq_true_eq]
  omega

theorem C2_witness :
    zeroMarginMask.params.isAffine = true ∧
    zeroMarginMask.params.finalAffineTransform.det ≠ 0 ∧
    sampleRect.containsPoint (0, 0) = true ∧
    zeroMarginMask.safeLimitingRect.containsPoint (0, 0) = true ∧
    ((zeroMarginMask.safeLimitingRect.left : ℚ) ≤
      (zeroMarginMask.params.finalAffineTransform.mapQ ((0 : ℚ), (0 : ℚ))).1 ∧
     (zeroMarginMask.params.finalAffineTransform.mapQ ((0 : ℚ), (0 : ℚ))).1 ≤
      (zeroMarginMask.safeLimitingRect.right : ℚ) + 1 ∧
     (zeroMarginMask.safeLimitingRect.top : ℚ) ≤
      (zeroMarginMask.params.finalAffineTransform.mapQ ((0 : ℚ), (0 : ℚ))).2 ∧
     (zeroMarginMask.params.finalAffineTransform.mapQ ((0 : ℚ), (0 : ℚ))).2 ≤
      (zeroMarginMask.safeLimitingRect.bottom : ℚ) + 1) ∧
    (zeroMarginMask.needRect
        (zeroMarginMask.changeRect sampleRect PositionToFilthy.N_FILTHY)
        PositionToFilthy.N_BELOW_FILTHY).containsPoint (0, 0) = true :=
  ⟨rfl,
   by norm_num [zeroMarginMask, sampleMask, idParams, idTransform,
     QTransform.det],
   by decide,
   by norm_num [zeroMarginMask, sampleMask, sampleLayer,
     KisTransformMask.safeLimitingRect, blowRect, QRect.width, QRect.height,
     QRect.adjusted, QRect.containsPoint, ratFloor_eq_floor],
   by norm_num [zeroMarginMask, sampleMask, sampleLayer, idParams, idTransform,
     KisTransformMask.safeLimitingRect, blowRect, QRect.width, QRect.height,
     QRect.adjusted, QTransform.mapQ, ratFloor_eq_floor],
   C2_needRect_changeRect_roundtrip zeroMarginMask sampleRect 0 0
     PositionToFilthy.N_FILTHY PositionToFilthy.N_BELOW_FILTHY rfl
     (by norm_num [zeroMarginMask, sampleMask, idParams, idTransform,
       QTransform.det])
     (by decide)
     (by norm_num [zeroMarginMask, sampleMask, sampleLayer,
       KisTransformMask.safeLimitingRect, blowRect, QRect.width, QRect.height,
       QRect.adjusted, QRect.containsPoint, ratFloor_eq_floor])
     (by norm_num [zeroMarginMask, sampleMask, sampleLayer, idParams,
       idTransform, KisTransformMask.safeLimitingRect, blowRect, QRect.width,
       QRect.height, QRect.adjusted, QTransform.mapQ, ratFloor_eq_floor])
     (by norm_num [zeroMarginMask, sampleMask, sampleLayer, idParams,
       idTransform, KisTransformMask.safeLimitingRect, blowRect, QRect.width,
       QRect.height, QRect.adjusted, QTransform.mapQ, ratFloor_eq_floor])
     (by norm_num [zeroMarginMask, sampleMask, sampleLayer, idParams,
       idTransform, KisTransformMask.safeLimitingRect, blowRect, QRect.width,
       QRect.height, QRect.adjusted, QTransform.mapQ, ratFloor_eq_floor])
     (by norm_num [zeroMarginMask, sampleMask, sampleLayer, idParams,
       idTransform, KisTransformMask.safeLimitingRect, blowRect, QRect.width,
       QRect.height, QRect.adjusted, QTransform.mapQ, ratFloor_eq_floor])⟩
